import Mathlib

/-!
Verification development for the long-form chunked processing engine of the
repository (robust text processor, legacy text processor, speech generator).

Texts are modelled as `List Char`; the external generative service is an
oracle indexed by a global call counter; machine-level details that the
claims do not touch (wall-clock timeouts, backoff sleep durations, the
sha256 digest step of the cache key, audio byte payloads and float
durations) are modelled as stated in the doc comment of each definition.
-/

set_option maxRecDepth 8192

namespace Spec2Proof

/-! Section: Constants of RobustTextProcessor.__init__ -/

/-- Source: `self.max_input_tokens = 20000` in `RobustTextProcessor.__init__`. -/
def max_input_tokens : Nat := 20000

/-- Source: `self.overlap_tokens = 2000` in `RobustTextProcessor.__init__`. -/
def overlap_tokens : Nat := 2000

/-- Source: `chunk_size = self.max_input_tokens * 4 // 5` in `_create_overlapping_chunks`. -/
def chunk_size : Nat := max_input_tokens * 4 / 5

/-- Source: `overlap_size = self.overlap_tokens * 4` in `_create_overlapping_chunks`. -/
def overlap_size : Nat := overlap_tokens * 4

/-! Section: Overlapping chunker (`_create_overlapping_chunks`) -/

/-- Membership test `c in '.!?'` used for sentence terminators. -/
def isTerm (c : Char) : Bool := c == '.' || c == '!' || c == '?'

/-- Forward scan worker: walks the remaining characters until a sentence
terminator is met, counting positions from `e`.  Together with `scanFwd`
this is the loop `while end < len(text) and text[end] not in '.!?': end += 1`. -/
def scanFwdAux : List Char → Nat → Nat
  | [], e => e
  | c :: rest, e => if isTerm c then e else scanFwdAux rest (e + 1)

/-- Forward scan of `_create_overlapping_chunks` starting at position `e`. -/
def scanFwd (text : List Char) (e : Nat) : Nat :=
  scanFwdAux (text.drop e) e

/-- Backward scan `while start > 0 and text[start-1] not in '.!?': start -= 1`. -/
def scanBwd (text : List Char) : Nat → Nat
  | 0 => 0
  | s + 1 => if isTerm (text.getD s ' ') then s + 1 else scanBwd text s

/-- A chunk tuple `(chunk, start, end)` as appended by `_create_overlapping_chunks`. -/
abbrev PyChunk := List Char × Nat × Nat

/-- The `end` value of one loop iteration of `_create_overlapping_chunks`:
`end = start + chunk_size`, then, when `end < len(text)`, extended forward to
the next sentence terminator and incremented once (`end += 1`). -/
def chunkEnd (text : List Char) (start : Nat) : Nat :=
  let e0 := start + chunk_size
  if e0 < text.length then scanFwd text e0 + 1 else e0

/-- The next `start` of one loop iteration: `start = end - overlap_size`,
then, when `0 < start < len(text)`, walked backward to the preceding
sentence terminator. -/
def nextStart (text : List Char) (start : Nat) : Nat :=
  let s1 := chunkEnd text start - overlap_size
  if 0 < s1 ∧ s1 < text.length then scanBwd text s1 else s1

/-- Fueled main loop of `_create_overlapping_chunks`.  The Python `while`
loop has no fuel; `none` means the given number of iterations did not
suffice, so the Python original is still spinning at that point. -/
def chunksGo (text : List Char) : Nat → Nat → List PyChunk → Option (List PyChunk)
  | 0, start, acc => if start < text.length then none else some acc.reverse
  | fuel + 1, start, acc =>
    if start < text.length then
      chunksGo text fuel (nextStart text start)
        (((text.drop start).take (chunkEnd text start - start), start, chunkEnd text start) :: acc)
    else some acc.reverse

/-- Source: `_create_overlapping_chunks(text)` with an explicit iteration budget. -/
def createOverlappingChunks (text : List Char) (fuel : Nat) : Option (List PyChunk) :=
  chunksGo text fuel 0 []

/-! Section: Basic scan lemmas -/

theorem scanFwdAux_ge (l : List Char) : ∀ e, e ≤ scanFwdAux l e := by
  induction l with
  | nil => intro e; simp [scanFwdAux]
  | cons c rest ih =>
    intro e
    simp only [scanFwdAux]
    by_cases h : isTerm c
    · simp [h]
    · simp only [h, if_false]
      exact Nat.le_trans (Nat.le_succ e) (ih (e + 1))

theorem scanBwd_le (text : List Char) : ∀ s, scanBwd text s ≤ s := by
  intro s
  induction s with
  | zero => simp [scanBwd]
  | succ s ih =>
    simp only [scanBwd]
    by_cases h : isTerm (text.getD s ' ')
    · rw [if_pos h]
    · rw [if_neg h]
      exact Nat.le_trans ih (Nat.le_succ s)

theorem chunk_size_eq : chunk_size = 16000 := by
  norm_num [chunk_size, max_input_tokens]

theorem overlap_size_eq : overlap_size = 8000 := by
  norm_num [overlap_size, overlap_tokens]

theorem chunkEnd_gt (text : List Char) (start : Nat) : start < chunkEnd text start := by
  unfold chunkEnd
  by_cases h : start + chunk_size < text.length
  · rw [if_pos h]
    have h1 : start + chunk_size ≤ scanFwd text (start + chunk_size) := scanFwdAux_ge _ _
    have h2 : 0 < chunk_size := by rw [chunk_size_eq]; norm_num
    omega
  · rw [if_neg h]
    have h2 : 0 < chunk_size := by rw [chunk_size_eq]; norm_num
    omega

theorem nextStart_le_chunkEnd (text : List Char) (start : Nat) :
    nextStart text start ≤ chunkEnd text start := by
  unfold nextStart
  by_cases h : 0 < chunkEnd text start - overlap_size ∧
      chunkEnd text start - overlap_size < text.length
  · rw [if_pos h]
    exact Nat.le_trans (scanBwd_le _ _) (Nat.sub_le _ _)
  · rw [if_neg h]
    exact Nat.sub_le _ _

/-! Section: Non-termination of the chunker on terminator-free text -/

/-- A 20000-character text with no sentence terminator at all. -/
def badText : List Char := List.replicate 20000 'a'

theorem getD_replicate_lt {n i : Nat} (h : i < n) (c d : Char) :
    (List.replicate n c).getD i d = c := by
  induction n generalizing i with
  | zero => omega
  | succ n ih =>
    rw [List.replicate_succ]
    cases i with
    | zero => rw [List.getD_cons_zero]
    | succ i =>
      rw [List.getD_cons_succ]
      exact ih (by omega)

theorem scanBwd_replicate_a {n : Nat} : ∀ s, s ≤ n → scanBwd (List.replicate n 'a') s = 0 := by
  intro s
  induction s with
  | zero => intro _; simp [scanBwd]
  | succ s ih =>
    intro hs
    have hlt : s < n := by omega
    have hg : (List.replicate n 'a').getD s ' ' = 'a' := getD_replicate_lt hlt 'a' ' '
    have hterm : ¬ (isTerm ((List.replicate n 'a').getD s ' ') = true) := by
      rw [hg]; decide
    simp only [scanBwd]
    rw [if_neg hterm]
    exact ih (by omega)

theorem scanFwdAux_replicate_a (k : Nat) : ∀ e, scanFwdAux (List.replicate k 'a') e = e + k := by
  induction k with
  | zero => intro e; simp [scanFwdAux]
  | succ k ih =>
    intro e
    have hterm : ¬ (isTerm 'a' = true) := by decide
    rw [List.replicate_succ]
    simp only [scanFwdAux]
    rw [if_neg hterm, ih (e + 1)]
    omega

theorem badText_length : badText.length = 20000 := by
  unfold badText
  rw [List.length_replicate]

theorem nextStart_badText : nextStart badText 0 = 0 := by
  have hend : chunkEnd badText 0 = 20001 := by
    unfold chunkEnd
    have hc : (0 : Nat) + chunk_size = 16000 := by rw [chunk_size_eq]
    rw [hc, badText_length]
    rw [if_pos (by norm_num)]
    unfold scanFwd
    have hdrop : badText.drop 16000 = List.replicate 4000 'a' := by
      unfold badText
      rw [List.drop_replicate]
    rw [hdrop, scanFwdAux_replicate_a]
  unfold nextStart
  rw [hend, badText_length, overlap_size_eq]
  have hs1 : (20001 : Nat) - 8000 = 12001 := by norm_num
  rw [hs1]
  rw [if_pos (by norm_num)]
  exact scanBwd_replicate_a 12001 (by norm_num)

/-- The chunker loop never leaves `start = 0` on `badText`, so no amount of
fuel makes it return. -/
theorem chunksGo_badText_none : ∀ fuel acc, chunksGo badText fuel 0 acc = none := by
  intro fuel
  induction fuel with
  | zero =>
    intro acc
    have h : (0 : Nat) < badText.length := by rw [badText_length]; norm_num
    simp only [chunksGo]
    rw [if_pos h]
  | succ fuel ih =>
    intro acc
    have h : (0 : Nat) < badText.length := by rw [badText_length]; norm_num
    simp only [chunksGo]
    rw [if_pos h, nextStart_badText]
    exact ih _

/-! Section: Coverage of produced chunks -/

/-- Position `i` lies in the `[startOffset, endOffset)` range of some chunk. -/
def coveredBy (cs : List PyChunk) (i : Nat) : Prop :=
  ∃ c ∈ cs, c.2.1 ≤ i ∧ i < c.2.2

theorem coveredBy_reverse {cs : List PyChunk} {i : Nat} (h : coveredBy cs i) :
    coveredBy cs.reverse i := by
  obtain ⟨c, hc, h1, h2⟩ := h
  exact ⟨c, List.mem_reverse.mpr hc, h1, h2⟩

theorem chunksGo_covered (text : List Char) :
    ∀ fuel start acc cs, chunksGo text fuel start acc = some cs →
      (∀ j, j < start → coveredBy acc j) →
      ∀ i, i < text.length → coveredBy cs i := by
  intro fuel
  induction fuel with
  | zero =>
    intro start acc cs h hacc i hi
    simp only [chunksGo] at h
    by_cases hs : start < text.length
    · rw [if_pos hs] at h
      exact Option.noConfusion h
    · rw [if_neg hs] at h
      injection h with h
      subst h
      exact coveredBy_reverse (hacc i (by omega))
  | succ fuel ih =>
    intro start acc cs h hacc i hi
    simp only [chunksGo] at h
    by_cases hs : start < text.length
    · rw [if_pos hs] at h
      apply ih _ _ _ h _ i hi
      intro j hj
      by_cases hjs : j < start
      · obtain ⟨c, hc, h1, h2⟩ := hacc j hjs
        exact ⟨c, List.mem_cons_of_mem _ hc, h1, h2⟩
      · refine ⟨_, List.mem_cons_self _ _, ?_, ?_⟩
        · show start ≤ j
          omega
        · show j < chunkEnd text start
          exact Nat.lt_of_lt_of_le hj (nextStart_le_chunkEnd text start)
    · rw [if_neg hs] at h
      injection h with h
      subst h
      exact coveredBy_reverse (hacc i (by omega))

/-- The literal reading of claim C5 at one text: the chunker returns (for
some iteration budget) a chunk list whose ranges cover the whole text. -/
def chunkerCoversAt (text : List Char) : Prop :=
  ∃ fuel cs, createOverlappingChunks text fuel = some cs ∧
    ∀ i, i < text.length → coveredBy cs i

/-! Section: Small-text behaviour of the chunker -/

theorem createOverlappingChunks_small (text : List Char) (h0 : 0 < text.length)
    (h1 : text.length ≤ overlap_size) (fuel : Nat) :
    createOverlappingChunks text (fuel + 1) = some [(text, 0, chunk_size)] := by
  have hlen : text.length ≤ 8000 := by rw [overlap_size_eq] at h1; exact h1
  have hend : chunkEnd text 0 = chunk_size := by
    unfold chunkEnd
    rw [Nat.zero_add, if_neg]
    rw [chunk_size_eq]
    omega
  have hnext : nextStart text 0 = 8000 := by
    unfold nextStart
    rw [hend, chunk_size_eq, overlap_size_eq]
    rw [if_neg]
    intro hc
    omega
  have hchunk : (text.drop 0).take (chunkEnd text 0 - 0) = text := by
    rw [hend, List.drop_zero, Nat.sub_zero]
    apply List.take_of_length_le
    rw [chunk_size_eq]
    omega
  simp only [createOverlappingChunks, chunksGo]
  rw [if_pos h0, hnext, hchunk, hend]
  cases fuel with
  | zero =>
    simp only [chunksGo]
    rw [if_neg (by omega)]
    rfl
  | succ fuel =>
    simp only [chunksGo]
    rw [if_neg (by omega)]
    rfl

/-! Section: Claim C1 -/

/-- C1 (code_bug): the claim says `_create_overlapping_chunks` terminates on
every input, with terminator-free text handled by hard character cuts.  The
code has no look-ahead bound and no fallback: on the 20000-character
terminator-free text `badText` the loop resets `start` to 0 forever, so no
iteration budget ever suffices and the Python original never returns. -/
theorem c1_chunker_nonterminating : ∀ fuel, createOverlappingChunks badText fuel = none :=
  fun fuel => chunksGo_badText_none fuel []

/-! Section: Claim C5 -/

/-- C5 (counterexample): as universally stated the coverage claim fails,
because on `badText` the chunker never produces a chunk list at all. -/
theorem c5_nontermination_cex : ¬ chunkerCoversAt badText := by
  rintro ⟨fuel, cs, h, -⟩
  unfold createOverlappingChunks at h
  rw [chunksGo_badText_none fuel []] at h
  exact Option.noConfusion h

/-- C5 (amended): whenever `_create_overlapping_chunks` terminates on a text,
the union of the produced `[startOffset, endOffset)` ranges covers every
character position of the input, with no gaps. -/
theorem c5_coverage_of_terminating (text : List Char) (fuel : Nat) (cs : List PyChunk)
    (h : createOverlappingChunks text fuel = some cs) :
    ∀ i, i < text.length → coveredBy cs i :=
  chunksGo_covered text fuel 0 [] cs h (fun j hj => absurd hj (Nat.not_lt_zero j))

/-- C5 (witness): on the two-character text `"ab"` the chunker terminates with
one chunk and the amended theorem yields coverage of position 1. -/
theorem c5_coverage_witness :
    createOverlappingChunks ['a', 'b'] 1 = some [(['a', 'b'], 0, chunk_size)] ∧
      coveredBy [(['a', 'b'], 0, chunk_size)] 1 := by
  have h : createOverlappingChunks ['a', 'b'] 1 = some [(['a', 'b'], 0, chunk_size)] :=
    createOverlappingChunks_small ['a', 'b'] (by norm_num) (by rw [overlap_size_eq]; norm_num) 0
  exact ⟨h, c5_coverage_of_terminating ['a', 'b'] 1 _ h 1 (by norm_num)⟩

/-! Section: Claim C6 -/

/-- A 10000-character text (shorter than `chunk_size = 16000`) whose only
sentence terminator sits at index 7999. -/
def cex6Text : List Char := List.replicate 7999 'a' ++ '.' :: List.replicate 2000 'a'

theorem cex6Text_length : cex6Text.length = 10000 := by
  unfold cex6Text
  rw [List.length_append, List.length_replicate, List.length_cons, List.length_replicate]

theorem getD_append_len (l1 l2 : List Char) (d : Char) :
    (l1 ++ l2).getD l1.length d = l2.getD 0 d := by
  induction l1 with
  | nil => rfl
  | cons c rest ih => simpa [List.getD_cons_succ] using ih

theorem getD_replicate_append (n : Nat) (c d : Char) (l2 : List Char) :
    (List.replicate n c ++ l2).getD n d = l2.getD 0 d := by
  have h := getD_append_len (List.replicate n c) l2 d
  rwa [List.length_replicate] at h

theorem scanBwd_cex6Text : scanBwd cex6Text 8000 = 8000 := by
  have hg : cex6Text.getD 7999 ' ' = '.' := by
    unfold cex6Text
    rw [getD_replicate_append]
    rfl
  have h8 : (8000 : Nat) = 7999 + 1 := by norm_num
  rw [h8]
  rw [scanBwd, hg]
  rfl

theorem createOverlappingChunks_cex6Text :
    createOverlappingChunks cex6Text 2 =
      some [((cex6Text.drop 0).take (chunkEnd cex6Text 0 - 0), 0, chunkEnd cex6Text 0),
            ((cex6Text.drop 8000).take (chunkEnd cex6Text 8000 - 8000), 8000,
              chunkEnd cex6Text 8000)] := by
  have hend0 : chunkEnd cex6Text 0 = 16000 := by
    unfold chunkEnd
    rw [Nat.zero_add, chunk_size_eq, cex6Text_length, if_neg (by norm_num)]
  have hnext0 : nextStart cex6Text 0 = 8000 := by
    unfold nextStart
    rw [hend0, overlap_size_eq, cex6Text_length]
    rw [if_pos (by norm_num)]
    exact scanBwd_cex6Text
  have hend1 : chunkEnd cex6Text 8000 = 24000 := by
    unfold chunkEnd
    rw [chunk_size_eq, cex6Text_length, if_neg (by norm_num)]
  have hnext1 : nextStart cex6Text 8000 = 16000 := by
    unfold nextStart
    rw [hend1, overlap_size_eq, cex6Text_length]
    rw [if_neg (by norm_num)]
  simp only [createOverlappingChunks, chunksGo]
  rw [cex6Text_length]
  rw [if_pos (by norm_num), hnext0, if_pos (by norm_num), hnext1, if_neg (by norm_num)]
  rfl

/-- C6 (counterexample): `cex6Text` is 10000 characters long — strictly
shorter than the 16000-character maximum chunk size — yet the chunker
returns two chunks, not one. -/
theorem c6_two_chunks_below_max :
    cex6Text.length < chunk_size ∧
      (createOverlappingChunks cex6Text 2).map List.length = some 2 := by
  constructor
  · rw [cex6Text_length, chunk_size_eq]
    norm_num
  · rw [createOverlappingChunks_cex6Text]
    rfl

/-- C6 (amended): only texts no longer than `overlap_size = 8000` characters
are guaranteed a single chunk: a nonempty text of length at most 8000 yields
exactly one chunk holding the whole text.  (The empty text yields zero
chunks, and texts of length 8001..15999 can yield two or more chunks or—as
`badText`-like inputs show—none at all.) -/
theorem c6_single_chunk_small_text (text : List Char) (h0 : 0 < text.length)
    (h1 : text.length ≤ overlap_size) :
    createOverlappingChunks text 1 = some [(text, 0, chunk_size)] :=
  createOverlappingChunks_small text h0 h1 0

/-- C6 (witness): the single-character text `"a"` yields exactly one chunk. -/
theorem c6_single_chunk_witness :
    0 < (['a'] : List Char).length ∧ (['a'] : List Char).length ≤ overlap_size ∧
      createOverlappingChunks ['a'] 1 = some [(['a'], 0, chunk_size)] := by
  have h0 : 0 < (['a'] : List Char).length := by norm_num
  have h1 : (['a'] : List Char).length ≤ overlap_size := by rw [overlap_size_eq]; norm_num
  exact ⟨h0, h1, c6_single_chunk_small_text ['a'] h0 h1⟩

/-! Section: Chunk merger (`_merge_chunks_intelligently`, `_find_overlap`) -/

/-- Python slice `t[-n:]` for `n ≥ 1`: the last `n` characters (the whole
list when `n` exceeds the length, matching negative-index clamping). -/
def pyTakeLast (t : List Char) (n : Nat) : List Char := t.drop (t.length - n)

/-- Python `str.lstrip()` restricted to ASCII whitespace. -/
def lstrip (t : List Char) : List Char := t.dropWhile Char.isWhitespace

/-- Python `str.rstrip()` restricted to ASCII whitespace. -/
def rstrip (t : List Char) : List Char := (t.reverse.dropWhile Char.isWhitespace).reverse

/-- Python `str.strip()` restricted to ASCII whitespace. -/
def stripBoth (t : List Char) : List Char := lstrip (rstrip t)

/-- Source: `merged.rstrip().endswith(('.', '!', '?'))`. -/
def endsWithTerminator (t : List Char) : Bool :=
  match (rstrip t).getLast? with
  | some c => isTerm c
  | none => false

/-- Descending candidate-length loop of `_find_overlap`:
`for length in range(hi, min_length, -1)` testing `text1[-length:] == text2[:length]`. -/
def findOverlapGo (t1 t2 : List Char) (minLen : Nat) : Nat → Option (List Char)
  | 0 => none
  | len + 1 =>
    if len + 1 ≤ minLen then none
    else if pyTakeLast t1 (len + 1) == t2.take (len + 1) then some (pyTakeLast t1 (len + 1))
    else findOverlapGo t1 t2 minLen len

/-- Source: `_find_overlap(text1, text2, min_length)`: scans candidate lengths from
`min(len(text1), len(text2), 500)` down to `min_length + 1`. -/
def findOverlap (t1 t2 : List Char) (minLen : Nat) : Option (List Char) :=
  findOverlapGo t1 t2 minLen (min (min t1.length t2.length) 500)

/-- Python `str.find`: index of the first occurrence of `needle` in `hay`,
`none` for Python's `-1`. -/
def strFind (hay needle : List Char) : Option Nat :=
  (List.range (hay.length + 1)).find? (fun i => needle.isPrefixOf (hay.drop i))

/-- One iteration of the merge loop in `_merge_chunks_intelligently`: strips
a found overlap longer than 100 characters from the head of the incoming
chunk, appends a period when the accumulated document lacks terminal
punctuation, then joins with a blank line. -/
def mergeStep (merged current : List Char) : List Char :=
  let overlap := findOverlap merged current 50
  let current2 :=
    match overlap with
    | some ov =>
      if 100 < ov.length then
        match strFind current ov with
        | some idx => current.drop (idx + ov.length)
        | none => current
      else current
    | none => current
  let merged2 := if endsWithTerminator merged then merged else merged ++ ['.']
  merged2 ++ '\n' :: '\n' :: lstrip current2

/-- Source: `_merge_chunks_intelligently(chunks)`. -/
def mergeChunks : List (List Char) → List Char
  | [] => []
  | c :: rest => rest.foldl mergeStep c

/-- Number of occurrences of `needle` as a substring of `hay` (count of
start positions). -/
def countOcc (hay needle : List Char) : Nat :=
  ((List.range (hay.length + 1)).filter (fun i => needle.isPrefixOf (hay.drop i))).length

/-! Section: Claim C3 -/

/-- First chunk output of the C3 scenario. -/
def mergeCexA : List Char := ("The cat sat on the mat.").toList

/-- Second chunk output of the C3 scenario. -/
def mergeCexB : List Char := ("the mat. And then it slept.").toList

/-- The shared boundary text of the C3 scenario. -/
def mergeCexPat : List Char := ("the mat.").toList

/-- C3 (counterexample): merging the two chunk outputs leaves "the mat." in
the document twice, not once: the 8-character shared tail/head is far below
the 50-character search floor of `_find_overlap` (and the 100-character
stripping threshold of the merge loop), so nothing is stripped. -/
theorem c3_overlap_not_stripped :
    countOcc (mergeChunks [mergeCexA, mergeCexB]) mergeCexPat = 2 := by decide

/-- C3 (amended): on these two chunk outputs the merger performs no overlap
removal at all — the result is exactly the first chunk, a blank line, then
the second chunk unchanged (so "the mat." appears twice).  Overlaps are only
stripped when an exact shared tail/head longer than 100 characters exists. -/
theorem c3_merge_keeps_both :
    mergeChunks [mergeCexA, mergeCexB] = mergeCexA ++ '\n' :: '\n' :: mergeCexB := by decide

/-! Section: Exception taxonomy and the retry wrapper (`_process_single_with_retry`) -/

/-- Exceptions reaching `_process_single_with_retry`.  In the anthropic SDK
hierarchy, `AuthenticationError` (auth), `BadRequestError` (validation),
`RateLimitError` and `InternalServerError` are all subclasses of
`anthropic.APIError`; `timeoutError` is `asyncio.TimeoutError`; `otherError`
is any exception outside both. -/
inductive Exc
  | authError
  | validationError
  | rateLimitError
  | serverError
  | timeoutError
  | otherError
deriving DecidableEq

/-- Python `isinstance(e, anthropic.APIError)` under the SDK class hierarchy. -/
def isAnthropicAPIError : Exc → Bool
  | Exc.authError => true
  | Exc.validationError => true
  | Exc.rateLimitError => true
  | Exc.serverError => true
  | Exc.timeoutError => false
  | Exc.otherError => false

/-- Membership in the exception tuple `(anthropic.APIError, asyncio.TimeoutError)`
given to `backoff.on_exception`. -/
def isRetriedExc (e : Exc) : Bool := isAnthropicAPIError e || e == Exc.timeoutError

/-- External text-service oracle: global call index and the message sent to
one attempt.  Wall-clock timeouts and backoff sleeps are not modelled; a
timed-out attempt surfaces as `Exc.timeoutError`. -/
abbrev Svc := Nat → List Char → Except Exc (List Char)

/-- The `backoff.on_exception(backoff.expo, (anthropic.APIError,
asyncio.TimeoutError), max_tries=3, ...)` loop around one attempt: an
exception in the listed tuple is retried while tries remain, anything else
(and the last failure) propagates.  Returns the outcome and the number of
attempts made. -/
def retryGo (svc : Svc) (msg : List Char) : Nat → Nat → Except Exc (List Char) × Nat
  | _, 0 => (Except.error Exc.otherError, 0)
  | callIdx, triesLeft + 1 =>
    match svc callIdx msg with
    | Except.ok r => (Except.ok r, 1)
    | Except.error e =>
      if isRetriedExc e = true ∧ triesLeft ≠ 0 then
        let r := retryGo svc msg (callIdx + 1) triesLeft
        (r.1, r.2 + 1)
      else (Except.error e, 1)

/-- The f-string message of `_process_single_with_retry`. -/
def mkMessage (prompt text : List Char) : List Char :=
  prompt ++ ("\n\nТекст для обработки:\n").toList ++ text ++
    ("\n\nОбработанный текст:").toList

/-- Source: `_process_single_with_retry(text, prompt, model)` with `max_tries = 3`.
The `model` argument reaches the real API call; the oracle abstracts the
response by global call index, so every attempt resends the same message. -/
def processSingleWithRetry (svc : Svc) (callIdx : Nat) (text prompt model : List Char) :
    Except Exc (List Char) × Nat :=
  retryGo svc (mkMessage prompt text) callIdx 3

theorem retryGo_const_err (e : Exc) (msg : List Char) (h : isRetriedExc e = true) :
    ∀ tries callIdx, retryGo (fun _ _ => Except.error e) msg callIdx (tries + 1) =
      (Except.error e, tries + 1) := by
  intro tries
  induction tries with
  | zero =>
    intro callIdx
    simp only [retryGo]
    rw [if_neg (fun hc => hc.2 rfl)]
  | succ t ih =>
    intro callIdx
    have step : retryGo (fun _ _ => Except.error e) msg callIdx (t + 1 + 1) =
        (if isRetriedExc e = true ∧ (t + 1) ≠ 0 then
          ((retryGo (fun _ _ => Except.error e) msg (callIdx + 1) (t + 1)).1,
            (retryGo (fun _ _ => Except.error e) msg (callIdx + 1) (t + 1)).2 + 1)
        else (Except.error e, 1)) := rfl
    rw [step, if_pos ⟨h, t.succ_ne_zero⟩, ih (callIdx + 1)]

/-! Section: Claim C4 -/

/-- C4 (counterexample): a permanently failing *fatal* error —
`anthropic.AuthenticationError`, a subclass of `anthropic.APIError` — is
retried by the decorator: three attempts are made, not the single attempt
the claim requires before propagation. -/
theorem c4_fatal_error_retried :
    processSingleWithRetry (fun _ _ => Except.error Exc.authError) 0 [] [] [] =
      (Except.error Exc.authError, 3) := rfl

/-- C4 (amended): `backoff.on_exception` catches `anthropic.APIError`, the
base class of the fatal auth/validation errors, so every anthropic error and
every timeout — fatal or transient — is retried up to 3 total attempts
before the error propagates; only exceptions outside that tuple propagate
after the first attempt. -/
theorem c4_api_errors_thrice (e : Exc) (callIdx : Nat) (text prompt model : List Char)
    (h : isRetriedExc e = true) :
    processSingleWithRetry (fun _ _ => Except.error e) callIdx text prompt model =
      (Except.error e, 3) := by
  unfold processSingleWithRetry
  exact retryGo_const_err e (mkMessage prompt text) h 2 callIdx

/-- C4 (witness): the amended theorem at the fatal `authError`, three
attempts observed. -/
theorem c4_api_errors_thrice_witness :
    isRetriedExc Exc.authError = true ∧
      processSingleWithRetry (fun _ _ => Except.error Exc.authError) 5 [] [] [] =
        (Except.error Exc.authError, 3) :=
  ⟨rfl, c4_api_errors_thrice Exc.authError 5 [] [] [] rfl⟩

/-! Section: Word counting (`len(result.split())`) -/

/-- Worker for Python `str.split()` with no separator: split on whitespace
runs, dropping empty fields; `acc` holds the current word reversed. -/
def splitWsAux : List Char → List Char → List (List Char)
  | [], acc => if acc.isEmpty then [] else [acc.reverse]
  | c :: cs, acc =>
    if c.isWhitespace then
      if acc.isEmpty then splitWsAux cs [] else acc.reverse :: splitWsAux cs []
    else splitWsAux cs (c :: acc)

/-- Python `text.split()`. -/
def pySplit (t : List Char) : List (List Char) := splitWsAux t []

/-- Python `len(text.split())`. -/
def wordCount (t : List Char) : Nat := (pySplit t).length

/-- A response consisting of `n` words: `"w w w ... w "`. -/
def wMany (n : Nat) : List Char := List.flatten (List.replicate n ('w' :: ' ' :: []))

theorem pySplit_wMany : ∀ n, pySplit (wMany n) = List.replicate n ['w'] := by
  intro n
  induction n with
  | zero => rfl
  | succ n ih =>
    have h : wMany (n + 1) = 'w' :: ' ' :: wMany n := by
      unfold wMany
      rw [List.replicate_succ, List.flatten_cons]
      rfl
    unfold pySplit
    rw [h]
    simp only [splitWsAux]
    rw [if_neg (show ¬(Char.isWhitespace 'w' = true) by decide)]
    rw [if_pos (show Char.isWhitespace ' ' = true by decide)]
    rw [if_neg (show ¬((('w' :: ([] : List Char)).isEmpty) = true) by decide)]
    have ih2 : splitWsAux (wMany n) [] = List.replicate n ['w'] := ih
    rw [ih2, List.replicate_succ]
    rfl

/-- An 18000-word response text. -/
def bigResp : List Char := wMany 18000

theorem wordCount_bigResp : wordCount bigResp = 18000 := by
  unfold wordCount bigResp
  rw [pySplit_wMany, List.length_replicate]

theorem wordCount_pos_ne_nil {t : List Char} (h : 0 < wordCount t) : t ≠ [] := by
  intro hnil
  subst hnil
  simp [wordCount, pySplit, splitWsAux] at h

/-! Section: Contextual prompt builder (`_build_contextual_prompt`) -/

/-- Decimal rendering of a number interpolated into an f-string. -/
def natStr (n : Nat) : List Char := (toString n).toList

/-- Source: `_build_contextual_prompt(base_prompt, chunk_index, total_chunks,
previous_summary, target_words_per_chunk)`: fixed-order string composition
of context part, position part and length instruction. -/
def buildContextualPrompt (basePrompt : List Char) (chunkIndex totalChunks : Nat)
    (previousSummary : List Char) (targetWordsPerChunk : Nat) : List Char :=
  let contextPart :=
    if previousSummary.isEmpty then []
    else ("\nКонтекст из предыдущей части:\n").toList ++ previousSummary ++ ['\n']
  let positionPart :=
    ("\nЭто часть ").toList ++ natStr (chunkIndex + 1) ++ (" из ").toList ++
      natStr totalChunks ++ ['.']
  let hint :=
    if 0 < chunkIndex then ("Продолжай развитие темы из предыдущей части").toList
    else ("Начни с введения в тему").toList
  let lengthInstruction :=
    ("\nВАЖНЫЕ ТРЕБОВАНИЯ:\n1. Этот фрагмент должен содержать примерно ").toList ++
      natStr targetWordsPerChunk ++
      (" слов\n2. Детально развей все идеи, добавь примеры и объяснения\n3. Сохраняй связность с предыдущими частями\n4. ").toList ++
      hint ++ ['\n']
  basePrompt ++ contextPart ++ positionPart ++ '\n' :: lengthInstruction

/-- The prompt built for chunk `i` inside `_process_with_sliding_window`:
the call passes `target_words_per_chunk = 20000 // len(chunks)`, a fixed
equal share independent of the words produced so far. -/
def slidingChunkPrompt (prompt : List Char) (i total : Nat) (ctxSummary : List Char) :
    List Char :=
  buildContextualPrompt prompt i total ctxSummary (20000 / total)

/-! Section: Context summary (`_extract_summary`) -/

/-- Python `text.split('.')`: split on every dot, keeping empty fields. -/
def splitOnDot : List Char → List (List Char)
  | [] => [[]]
  | c :: cs =>
    if c == '.' then [] :: splitOnDot cs
    else
      match splitOnDot cs with
      | [] => [[c]]
      | w :: ws => (c :: w) :: ws

/-- Source: `_extract_summary(text, max_length=500)`: first two plus last two
sentences (all of them when four or fewer), stripped, greedily kept under
500 characters, joined with `". "` and closed with a period. -/
def extractSummary (t : List Char) : List Char :=
  let sentences := splitOnDot t
  let important :=
    if 4 < sentences.length then sentences.take 2 ++ sentences.drop (sentences.length - 2)
    else sentences
  let chosen := important.foldl
    (fun (acc : List (List Char) × Nat) s =>
      let s2 := stripBoth s
      if s2 ≠ [] ∧ acc.2 + s2.length < 500 then (acc.1 ++ [s2], acc.2 + s2.length) else acc)
    (([] : List (List Char)), (0 : Nat))
  List.intercalate ('.' :: ' ' :: []) chosen.1 ++ ['.']

/-! Section: Sliding-window driver (`_process_with_sliding_window`) -/

/-- The per-chunk loop of `_process_with_sliding_window`: processes chunks in
order, carrying the extracted summary of the previous output forward and
threading the global call counter; a chunk failure aborts the whole run.
(The source passes the loop variable — the whole `(chunk, start, end)` tuple —
to `_process_single_with_retry`, which stringifies it into the message; the
chunk text component stands in for that payload here.) -/
def swLoop (svc : Svc) (prompt model : List Char) (total : Nat) :
    List PyChunk → Nat → Nat → List (List Char) → List Char →
      Except Exc (List (List Char)) × Nat
  | [], _, callIdx, parts, _ => (Except.ok parts.reverse, callIdx)
  | ch :: rest, i, callIdx, parts, ctxSummary =>
    match processSingleWithRetry svc callIdx ch.1
        (slidingChunkPrompt prompt i total ctxSummary) model with
    | (Except.error e, n) => (Except.error e, callIdx + n)
    | (Except.ok processed, n) =>
      swLoop svc prompt model total rest (i + 1) (callIdx + n) (processed :: parts)
        (extractSummary processed)

/-- Source: `_process_with_sliding_window(text, prompt, model)`: chunk, process each
chunk sequentially, merge.  `none` when the chunker itself never returns. -/
def processSlidingWindow (svc : Svc) (callIdx : Nat) (text prompt model : List Char)
    (fuel : Nat) : Option (Except Exc (List Char) × Nat) :=
  match createOverlappingChunks text fuel with
  | none => none
  | some chunks =>
    match swLoop svc prompt model chunks.length chunks 0 callIdx [] [] with
    | (Except.error e, c) => some (Except.error e, c)
    | (Except.ok parts, c) => some (Except.ok (mergeChunks parts), c)

/-! Section: Length-target expander (`_expand_text`) -/

/-- The expansion prompt f-string of `_expand_text` (the trailing
`# Последняя часть для контекста` of the Python source sits inside the
triple-quoted string, so it is part of the prompt). -/
def expansionPrompt (originalPrompt : List Char) (targetAdditionalWords : Nat)
    (text : List Char) : List Char :=
  '\n' :: originalPrompt ++ ("\n\nТекст нужно расширить, добавив еще примерно ").toList ++
    natStr targetAdditionalWords ++
    (" слов.\nДобавь больше деталей, примеров, объяснений и развития идей.\nСохрани стиль и тон оригинального текста.\n\nИсходный текст для расширения:\n").toList ++
    pyTakeLast text 3000 ++
    ("  # Последняя часть для контекста\n\nПродолжение:\n").toList

/-- Source: `_expand_text(text, original_prompt, model, target_additional_words)`:
one `_process_single_with_retry` call on the last 3000 characters, result
appended to the document after a blank line. -/
def expandText (svc : Svc) (callIdx : Nat) (text originalPrompt model : List Char)
    (targetAdditionalWords : Nat) : Except Exc (List Char) × Nat :=
  match processSingleWithRetry svc callIdx (pyTakeLast text 3000)
      (expansionPrompt originalPrompt targetAdditionalWords text) model with
  | (Except.ok expansion, n) => (Except.ok (text ++ '\n' :: '\n' :: expansion), n)
  | (Except.error e, n) => (Except.error e, n)

/-! Section: Cache and top-level processor (`process_to_20k_words`) -/

/-- Source: `estimate_tokens(text) = len(text) // 4`. -/
def estimateTokens (t : List Char) : Nat := t.length / 4

/-- Source: `_get_cache_key(text, prompt, model)`: the code hashes the content
string `f"{text[:1000]}:{prompt}:{model}"` with sha256; the digest is
modelled by its preimage (an injective stand-in), so the key depends on the
first 1000 payload characters, the prompt and the model only. -/
def getCacheKey (text prompt model : List Char) : List Char :=
  text.take 1000 ++ ':' :: prompt ++ ':' :: model

/-- Processor state: the cache directory contents (newest entry first, the
newest entry for a key wins, matching file overwrite) and the number of
external service calls made so far. -/
structure PState where
  cache : List (List Char × List Char)
  calls : Nat

/-- Source: `_load_from_cache`: first (newest) entry for the key. -/
def cacheLookup (cache : List (List Char × List Char)) (k : List Char) :
    Option (List Char) :=
  (cache.find? (fun e => e.1 == k)).map (fun e => e.2)

/-- Source: `_save_to_cache`: write (overwrite) the entry for the key. -/
def saveToCache (cache : List (List Char × List Char)) (k v : List Char) :
    List (List Char × List Char) :=
  (k, v) :: cache

/-- Tail of `process_to_20k_words` after a processing result is available:
count words, expand once when below 18000, then write the final result to
the cache (only on success; an exception propagates before the save). -/
def finishResult (svc : Svc) (useCache : Bool) (key : List Char)
    (cache : List (List Char × List Char)) (callIdx : Nat)
    (result prompt model : List Char) : Except Exc (List Char) × PState :=
  match (if wordCount result < 18000 then
      expandText svc callIdx result prompt model (20000 - wordCount result)
    else (Except.ok result, 0)) with
  | (Except.ok r, n) =>
    (Except.ok r, ⟨if useCache then saveToCache cache key r else cache, callIdx + n⟩)
  | (Except.error e, n) => (Except.error e, ⟨cache, callIdx + n⟩)

/-- The processing body of `process_to_20k_words`: sliding-window path when
the estimated input tokens exceed `max_input_tokens`, otherwise one retried
single call; then the `finishResult` tail. -/
def processCore (svc : Svc) (fuel : Nat) (st : PState) (text prompt model : List Char)
    (useCache : Bool) (key : List Char) : Option (Except Exc (List Char) × PState) :=
  if max_input_tokens < estimateTokens text then
    match processSlidingWindow svc st.calls text prompt model fuel with
    | none => none
    | some (Except.error e, c) => some (Except.error e, ⟨st.cache, c⟩)
    | some (Except.ok result, c) =>
      some (finishResult svc useCache key st.cache c result prompt model)
  else
    match processSingleWithRetry svc st.calls text prompt model with
    | (Except.error e, n) => some (Except.error e, ⟨st.cache, st.calls + n⟩)
    | (Except.ok result, n) =>
      some (finishResult svc useCache key st.cache (st.calls + n) result prompt model)

/-- Source: `process_to_20k_words(original_text, prompt, model, use_cache)`: cache
read-through first (`if cached_result:` is Python truthiness, so an empty
cached string falls through to processing), then the processing body.
`none` only when the sliding-window chunker never returns. -/
def processTo20k (svc : Svc) (fuel : Nat) (st : PState) (text prompt model : List Char)
    (useCache : Bool) : Option (Except Exc (List Char) × PState) :=
  match (if useCache then cacheLookup st.cache (getCacheKey text prompt model) else none) with
  | some r =>
    if r.isEmpty then
      processCore svc fuel st text prompt model useCache (getCacheKey text prompt model)
    else some (Except.ok r, st)
  | none => processCore svc fuel st text prompt model useCache (getCacheKey text prompt model)

/-! Section: Behaviour lemmas for the processor model -/

theorem retryGo_ok (svc : Svc) (msg : List Char) (callIdx t : Nat) (r : List Char)
    (h : svc callIdx msg = Except.ok r) :
    retryGo svc msg callIdx (t + 1) = (Except.ok r, 1) := by
  have step : retryGo svc msg callIdx (t + 1) =
      (match svc callIdx msg with
        | Except.ok r => (Except.ok r, 1)
        | Except.error e =>
          if isRetriedExc e = true ∧ t ≠ 0 then
            ((retryGo svc msg (callIdx + 1) t).1, (retryGo svc msg (callIdx + 1) t).2 + 1)
          else (Except.error e, 1)) := rfl
  rw [step, h]

theorem finishResult_no_expand (svc : Svc) (useCache : Bool) (key : List Char)
    (cache : List (List Char × List Char)) (callIdx : Nat)
    (result prompt model : List Char) (hwc : 18000 ≤ wordCount result) :
    finishResult svc useCache key cache callIdx result prompt model =
      (Except.ok result,
        ⟨if useCache then saveToCache cache key result else cache, callIdx⟩) := by
  unfold finishResult
  rw [if_neg (Nat.not_lt.mpr hwc)]
  rfl

theorem finishResult_expand (svc : Svc) (useCache : Bool) (key : List Char)
    (cache : List (List Char × List Char)) (callIdx : Nat)
    (result prompt model resp1 : List Char) (hwc : wordCount result < 18000)
    (hx : svc callIdx (mkMessage (expansionPrompt prompt (20000 - wordCount result) result)
        (pyTakeLast result 3000)) = Except.ok resp1) :
    finishResult svc useCache key cache callIdx result prompt model =
      (Except.ok (result ++ '\n' :: '\n' :: resp1),
        ⟨if useCache then saveToCache cache key (result ++ '\n' :: '\n' :: resp1) else cache,
          callIdx + 1⟩) := by
  have hretry : processSingleWithRetry svc callIdx (pyTakeLast result 3000)
      (expansionPrompt prompt (20000 - wordCount result) result) model =
        (Except.ok resp1, 1) := by
    unfold processSingleWithRetry
    exact retryGo_ok svc _ callIdx 2 resp1 hx
  unfold finishResult
  rw [if_pos hwc]
  unfold expandText
  rw [hretry]

theorem processTo20k_single_ok (svc : Svc) (fuel : Nat) (text prompt model resp0 : List Char)
    (hsm : estimateTokens text ≤ max_input_tokens)
    (h0 : svc 0 (mkMessage prompt text) = Except.ok resp0)
    (hwc : 18000 ≤ wordCount resp0) :
    processTo20k svc fuel ⟨[], 0⟩ text prompt model true =
      some (Except.ok resp0, ⟨[(getCacheKey text prompt model, resp0)], 1⟩) := by
  have hstep : processTo20k svc fuel ⟨[], 0⟩ text prompt model true =
      processCore svc fuel ⟨[], 0⟩ text prompt model true (getCacheKey text prompt model) := rfl
  have hsingle : processSingleWithRetry svc 0 text prompt model = (Except.ok resp0, 1) := by
    unfold processSingleWithRetry
    exact retryGo_ok svc _ 0 2 resp0 h0
  rw [hstep]
  unfold processCore
  rw [if_neg (Nat.not_lt.mpr hsm)]
  simp only [hsingle, Nat.zero_add]
  rw [finishResult_no_expand svc true _ _ _ resp0 prompt model hwc]
  rfl

theorem cacheLookup_save_self (cache : List (List Char × List Char)) (k v : List Char) :
    cacheLookup (saveToCache cache k v) k = some v := by
  unfold cacheLookup saveToCache
  rw [List.find?_cons_of_pos _ (by simp)]
  rfl

theorem processTo20k_cache_hit (svc : Svc) (fuel : Nat) (st : PState)
    (text prompt model r : List Char)
    (h : cacheLookup st.cache (getCacheKey text prompt model) = some r)
    (hr : r.isEmpty = false) :
    processTo20k svc fuel st text prompt model true = some (Except.ok r, st) := by
  unfold processTo20k
  rw [show (if true then cacheLookup st.cache (getCacheKey text prompt model) else none) =
      cacheLookup st.cache (getCacheKey text prompt model) from if_pos rfl]
  rw [h]
  simp [hr]

theorem isEmpty_false_of_wordCount {t : List Char} (h : 0 < wordCount t) :
    t.isEmpty = false := by
  have hne : t ≠ [] := wordCount_pos_ne_nil h
  cases t with
  | nil => exact absurd rfl hne
  | cons c cs => rfl

theorem isEmpty_false_append_nl (a b : List Char) :
    (a ++ '\n' :: '\n' :: b).isEmpty = false := by
  cases a with
  | nil => rfl
  | cons c cs => rfl

theorem processTo20k_single_expand (svc : Svc) (fuel : Nat)
    (text prompt model resp0 resp1 : List Char)
    (hsm : estimateTokens text ≤ max_input_tokens)
    (h0 : svc 0 (mkMessage prompt text) = Except.ok resp0)
    (hwc : wordCount resp0 < 18000)
    (hx : svc 1 (mkMessage (expansionPrompt prompt (20000 - wordCount resp0) resp0)
        (pyTakeLast resp0 3000)) = Except.ok resp1) :
    processTo20k svc fuel ⟨[], 0⟩ text prompt model true =
      some (Except.ok (resp0 ++ '\n' :: '\n' :: resp1),
        ⟨[(getCacheKey text prompt model, resp0 ++ '\n' :: '\n' :: resp1)], 2⟩) := by
  have hstep : processTo20k svc fuel ⟨[], 0⟩ text prompt model true =
      processCore svc fuel ⟨[], 0⟩ text prompt model true (getCacheKey text prompt model) := rfl
  have hsingle : processSingleWithRetry svc 0 text prompt model = (Except.ok resp0, 1) := by
    unfold processSingleWithRetry
    exact retryGo_ok svc _ 0 2 resp0 h0
  rw [hstep]
  unfold processCore
  rw [if_neg (Nat.not_lt.mpr hsm)]
  simp only [hsingle, Nat.zero_add]
  rw [finishResult_expand svc true _ _ _ resp0 prompt model resp1 hwc hx]
  rfl

/-! Section: Claim C8 -/

/-- C8 (counterexample): the claim's "exactly one external service call" for
two successive identical invocations with caching enabled fails whenever the
first response falls below the 18000-word bar: with a service answering the
one-word text "hi", the first invocation makes two external calls — the
processing call plus the `_expand_text` call — before caching; the second
invocation is a cache hit, so the pair ends at two calls, not one. -/
theorem c8_two_calls_below_bar :
    processTo20k (fun _ _ => Except.ok ('h' :: 'i' :: [])) 0 ⟨[], 0⟩ [] [] [] true =
        some (Except.ok ['h', 'i', '\n', '\n', 'h', 'i'],
          ⟨[([':', ':'], ['h', 'i', '\n', '\n', 'h', 'i'])], 2⟩) ∧
      processTo20k (fun _ _ => Except.ok ('h' :: 'i' :: [])) 0
          ⟨[([':', ':'], ['h', 'i', '\n', '\n', 'h', 'i'])], 2⟩ [] [] [] true =
        some (Except.ok ['h', 'i', '\n', '\n', 'h', 'i'],
          ⟨[([':', ':'], ['h', 'i', '\n', '\n', 'h', 'i'])], 2⟩) ∧
      (2 : Nat) ≠ 1 :=
  ⟨rfl, rfl, by decide⟩

/-- C8 (amended): with caching enabled, a fresh state and a payload on the
single-call path with a first-attempt success, every external call happens in
the first invocation: exactly one call when its response reaches the
18000-word bar, two calls (the processing call plus the single expansion
call) when it falls below; in both cases the final text is written through
to the cache, and the second invocation with identical
`(payload, prompt, model)` is answered from the cache — same text back, no
further external call. -/
theorem c8_cache_write_read (svc : Svc) (fuel : Nat) (text prompt model resp0 : List Char)
    (hsm : estimateTokens text ≤ max_input_tokens)
    (h0 : svc 0 (mkMessage prompt text) = Except.ok resp0) :
    (18000 ≤ wordCount resp0 →
      processTo20k svc fuel ⟨[], 0⟩ text prompt model true =
          some (Except.ok resp0, ⟨[(getCacheKey text prompt model, resp0)], 1⟩) ∧
        processTo20k svc fuel ⟨[(getCacheKey text prompt model, resp0)], 1⟩
            text prompt model true =
          some (Except.ok resp0, ⟨[(getCacheKey text prompt model, resp0)], 1⟩)) ∧
    (∀ resp1, wordCount resp0 < 18000 →
      svc 1 (mkMessage (expansionPrompt prompt (20000 - wordCount resp0) resp0)
        (pyTakeLast resp0 3000)) = Except.ok resp1 →
      processTo20k svc fuel ⟨[], 0⟩ text prompt model true =
          some (Except.ok (resp0 ++ '\n' :: '\n' :: resp1),
            ⟨[(getCacheKey text prompt model, resp0 ++ '\n' :: '\n' :: resp1)], 2⟩) ∧
        processTo20k svc fuel
            ⟨[(getCacheKey text prompt model, resp0 ++ '\n' :: '\n' :: resp1)], 2⟩
            text prompt model true =
          some (Except.ok (resp0 ++ '\n' :: '\n' :: resp1),
            ⟨[(getCacheKey text prompt model, resp0 ++ '\n' :: '\n' :: resp1)], 2⟩)) := by
  constructor
  · intro hwc
    refine ⟨processTo20k_single_ok svc fuel text prompt model resp0 hsm h0 hwc, ?_⟩
    apply processTo20k_cache_hit
    · show cacheLookup [(getCacheKey text prompt model, resp0)]
        (getCacheKey text prompt model) = some resp0
      have h := cacheLookup_save_self [] (getCacheKey text prompt model) resp0
      simpa [saveToCache] using h
    · exact isEmpty_false_of_wordCount (by omega)
  · intro resp1 hwc hx
    refine ⟨processTo20k_single_expand svc fuel text prompt model resp0 resp1 hsm h0 hwc hx, ?_⟩
    apply processTo20k_cache_hit
    · show cacheLookup [(getCacheKey text prompt model, resp0 ++ '\n' :: '\n' :: resp1)]
        (getCacheKey text prompt model) = some (resp0 ++ '\n' :: '\n' :: resp1)
      have h := cacheLookup_save_self [] (getCacheKey text prompt model)
        (resp0 ++ '\n' :: '\n' :: resp1)
      simpa [saveToCache] using h
    · exact isEmpty_false_append_nl resp0 resp1

/-- C8 (witness): the amended theorem at the concrete sub-18000-word run —
two external calls in the first invocation, cache hit in the second. -/
theorem c8_cache_write_read_witness :
    estimateTokens [] ≤ max_input_tokens ∧ wordCount ('h' :: 'i' :: []) < 18000 ∧
      (processTo20k (fun _ _ => Except.ok ('h' :: 'i' :: [])) 0 ⟨[], 0⟩ [] [] [] true =
          some (Except.ok (('h' :: 'i' :: []) ++ '\n' :: '\n' :: ('h' :: 'i' :: [])),
            ⟨[(getCacheKey [] [] [],
              ('h' :: 'i' :: []) ++ '\n' :: '\n' :: ('h' :: 'i' :: []))], 2⟩) ∧
        processTo20k (fun _ _ => Except.ok ('h' :: 'i' :: [])) 0
            ⟨[(getCacheKey [] [] [],
              ('h' :: 'i' :: []) ++ '\n' :: '\n' :: ('h' :: 'i' :: []))], 2⟩ [] [] [] true =
          some (Except.ok (('h' :: 'i' :: []) ++ '\n' :: '\n' :: ('h' :: 'i' :: [])),
            ⟨[(getCacheKey [] [] [],
              ('h' :: 'i' :: []) ++ '\n' :: '\n' :: ('h' :: 'i' :: []))], 2⟩)) :=
  ⟨by decide, by decide,
    (c8_cache_write_read (fun _ _ => Except.ok ('h' :: 'i' :: [])) 0 [] [] []
      ('h' :: 'i' :: []) (by decide) rfl).2 ('h' :: 'i' :: []) (by decide) rfl⟩

/-! Section: Claim C9 -/

/-- C9: on the single-call path, the Length-Target Expander runs iff the
word count of the processing result is strictly below 18000 = 0.9 · 20000:
at or above the bar the result is returned untouched after exactly one
external call (so a document of exactly 18000 words is not expanded), and
below the bar exactly one expansion pass runs — one further external call,
its output appended once after a blank line. -/
theorem c9_expansion_threshold (svc : Svc) (fuel : Nat) (text prompt model resp0 : List Char)
    (hsm : estimateTokens text ≤ max_input_tokens)
    (h0 : svc 0 (mkMessage prompt text) = Except.ok resp0) :
    (18000 ≤ wordCount resp0 →
      processTo20k svc fuel ⟨[], 0⟩ text prompt model true =
        some (Except.ok resp0, ⟨[(getCacheKey text prompt model, resp0)], 1⟩)) ∧
    (∀ resp1, wordCount resp0 < 18000 →
      svc 1 (mkMessage (expansionPrompt prompt (20000 - wordCount resp0) resp0)
        (pyTakeLast resp0 3000)) = Except.ok resp1 →
      processTo20k svc fuel ⟨[], 0⟩ text prompt model true =
        some (Except.ok (resp0 ++ '\n' :: '\n' :: resp1),
          ⟨[(getCacheKey text prompt model, resp0 ++ '\n' :: '\n' :: resp1)], 2⟩)) := by
  constructor
  · intro hwc
    exact processTo20k_single_ok svc fuel text prompt model resp0 hsm h0 hwc
  · intro resp1 hwc hx
    exact processTo20k_single_expand svc fuel text prompt model resp0 resp1 hsm h0 hwc hx

/-- C9 (witness): a two-character (one-word) response triggers exactly one
expansion pass: two external calls, the expansion appended once. -/
theorem c9_expansion_threshold_witness :
    wordCount ('h' :: 'i' :: []) < 18000 ∧
      processTo20k (fun _ _ => Except.ok ('h' :: 'i' :: [])) 0 ⟨[], 0⟩ [] [] [] true =
        some (Except.ok ['h', 'i', '\n', '\n', 'h', 'i'],
          ⟨[([':', ':'], ['h', 'i', '\n', '\n', 'h', 'i'])], 2⟩) :=
  ⟨by decide,
    (c9_expansion_threshold (fun _ _ => Except.ok ('h' :: 'i' :: [])) 0 [] [] []
      ('h' :: 'i' :: []) (by decide) rfl).2 ('h' :: 'i' :: []) (by decide) rfl⟩

/-! Section: Claim C10 -/

/-- C10: the cache key depends only on the first 1000 payload characters
(plus prompt and model).  For two payloads agreeing on their first 1000
characters, with caching enabled and identical prompt and model, the keys
collide: after the first payload is processed and cached, invoking the
processor on the second payload is answered with the first payload's cached
response and makes no external call — even when the payloads differ beyond
position 1000. -/
theorem c10_cache_prefix_collision (svc : Svc) (fuel : Nat)
    (text1 text2 prompt model resp0 : List Char)
    (hpref : text1.take 1000 = text2.take 1000)
    (hsm : estimateTokens text1 ≤ max_input_tokens)
    (h0 : svc 0 (mkMessage prompt text1) = Except.ok resp0)
    (hwc : 18000 ≤ wordCount resp0) :
    processTo20k svc fuel ⟨[], 0⟩ text1 prompt model true =
        some (Except.ok resp0, ⟨[(getCacheKey text1 prompt model, resp0)], 1⟩) ∧
      processTo20k svc fuel ⟨[(getCacheKey text1 prompt model, resp0)], 1⟩
          text2 prompt model true =
        some (Except.ok resp0, ⟨[(getCacheKey text1 prompt model, resp0)], 1⟩) := by
  have hkey : getCacheKey text2 prompt model = getCacheKey text1 prompt model := by
    unfold getCacheKey
    rw [hpref]
  constructor
  · exact processTo20k_single_ok svc fuel text1 prompt model resp0 hsm h0 hwc
  · apply processTo20k_cache_hit
    · show cacheLookup [(getCacheKey text1 prompt model, resp0)]
        (getCacheKey text2 prompt model) = some resp0
      rw [hkey]
      have h := cacheLookup_save_self [] (getCacheKey text1 prompt model) resp0
      simpa [saveToCache] using h
    · exact isEmpty_false_of_wordCount (by omega)

/-- First payload of the C10 witness: 1001 letters `a`. -/
def c10Text1 : List Char := List.replicate 1001 'a'

/-- Second payload of the C10 witness: 1000 letters `a` then a `b` — same
first 1000 characters as `c10Text1`, different beyond position 1000. -/
def c10Text2 : List Char := List.replicate 1000 'a' ++ ['b']

/-- C10 (witness): the two distinct payloads collide on the cache key and
the second invocation is served the first payload's response. -/
theorem c10_cache_prefix_collision_witness :
    c10Text1 ≠ c10Text2 ∧ c10Text1.take 1000 = c10Text2.take 1000 ∧
      processTo20k (fun _ _ => Except.ok bigResp) 0
          ⟨[(getCacheKey c10Text1 [] [], bigResp)], 1⟩ c10Text2 [] [] true =
        some (Except.ok bigResp, ⟨[(getCacheKey c10Text1 [] [], bigResp)], 1⟩) := by
  have hpref : c10Text1.take 1000 = c10Text2.take 1000 := by
    unfold c10Text1 c10Text2
    rw [List.take_replicate, List.take_append_of_le_length (by rw [List.length_replicate]),
      List.take_replicate]
    norm_num
  have hsm : estimateTokens c10Text1 ≤ max_input_tokens := by
    unfold estimateTokens c10Text1
    rw [List.length_replicate]
    norm_num [max_input_tokens]
  refine ⟨by decide, hpref, ?_⟩
  exact (c10_cache_prefix_collision (fun _ _ => Except.ok bigResp) 0 c10Text1 c10Text2
    [] [] bigResp hpref hsm rfl wordCount_bigResp.ge).2

/-! Section: Claim C7 -/

/-- Spec formula (§4.2), written from the spec's words for comparison:
`targetWordsForChunk = (overallTarget − wordsProducedSoFar) / (totalChunks −
chunkIndex)` — remaining work divided by remaining slots. -/
def specTargetWordsForChunk (overallTarget wordsProducedSoFar totalChunks chunkIndex : Nat) :
    Nat :=
  (overallTarget - wordsProducedSoFar) / (totalChunks - chunkIndex)

/-- Source: `_adapt_prompt_for_length` of the legacy `TextProcessor`: `remaining_words
= target_length - current_length; words_per_chunk = remaining_words //
(total_chunks - chunk_index)` with Python ints and floor division. -/
def adaptWordsPerChunk (currentLength targetLength chunkIndex totalChunks : Int) : Int :=
  (targetLength - currentLength).fdiv (totalChunks - chunkIndex)

/-- C7 (counterexample): after a first chunk that produced 15000 of the
20000-word target, the claim requires chunk 1 of 2 to be prompted with
(20000−15000)/(2−1) = 5000 words, but the sliding-window driver builds the
prompt with the fixed share 20000 // 2 = 10000: the two prompts differ. -/
theorem c7_fixed_share_not_amortized :
    slidingChunkPrompt [] 1 2 [] ≠
      buildContextualPrompt [] 1 2 [] (specTargetWordsForChunk 20000 15000 2 1) := by
  decide

/-- C7 (amended): the robust sliding-window driver passes every chunk the
fixed equal share `20000 // totalChunks` — the spec's amortization formula
frozen at chunk 0 with zero words produced — independent of the chunk index
and of the words produced so far; the amortized formula itself lives only in
the legacy `TextProcessor._adapt_prompt_for_length`, which computes exactly
`(target − current) // (total − index)`. -/
theorem c7_fixed_share_prompt (basePrompt : List Char) (i n : Nat) (ctx : List Char)
    (c t j m : Nat) (hc : c ≤ t) (hj : j ≤ m) :
    slidingChunkPrompt basePrompt i n ctx =
        buildContextualPrompt basePrompt i n ctx (specTargetWordsForChunk 20000 0 n 0) ∧
      adaptWordsPerChunk (c : Int) (t : Int) (j : Int) (m : Int) =
        ((specTargetWordsForChunk t c m j : Nat) : Int) := by
  constructor
  · unfold slidingChunkPrompt specTargetWordsForChunk
    rw [Nat.sub_zero, Nat.sub_zero]
  · unfold adaptWordsPerChunk specTargetWordsForChunk
    rw [← Nat.cast_sub hc, ← Nat.cast_sub hj]
    exact_mod_cast (Int.ofNat_fdiv (t - c) (m - j)).symm

/-- C7 (witness): the amended theorem at the counterexample scenario —
fixed share 10000 in the built prompt, amortized value 5000 in the legacy
formula. -/
theorem c7_fixed_share_prompt_witness :
    (15000 : Nat) ≤ 20000 ∧ (1 : Nat) ≤ 2 ∧
      (slidingChunkPrompt [] 1 2 [] =
          buildContextualPrompt [] 1 2 [] (specTargetWordsForChunk 20000 0 2 0) ∧
        adaptWordsPerChunk (15000 : Int) (20000 : Int) (1 : Int) (2 : Int) =
          ((specTargetWordsForChunk 20000 15000 2 1 : Nat) : Int)) :=
  ⟨by norm_num, by norm_num,
    c7_fixed_share_prompt [] 1 2 [] 15000 20000 1 2 (by norm_num) (by norm_num)⟩

/-! Section: Batch dispatcher (`SpeechGenerator.generate_for_20k_words`) -/

/-- Source: `f"{i:04d}"`: decimal rendering zero-padded to width 4. -/
def pad4 (i : Nat) : List Char :=
  List.replicate (4 - (natStr i).length) '0' ++ natStr i

/-- Source: `f"speech_{chunk_index:04d}.mp3"`, relative to the output directory. -/
def speechPath (i : Nat) : List Char :=
  ("speech_").toList ++ pad4 i ++ (".mp3").toList

/-- Per-segment outcome of the batch loop body: attempt 0 is the gathered
batch call, attempt 1 the synchronous retry after an exception; both failing
hits the `continue` that skips the segment.  `outcome i a = true` means
attempt `a` of segment `i` succeeds; audio bytes and float durations are not
modelled, a success is identified by the path written. -/
def segResult (outcome : Nat → Nat → Bool) (i : Nat) : Option (List Char) :=
  if outcome i 0 then some (speechPath i)
  else if outcome i 1 then some (speechPath i)
  else none

/-- The `for i, result in enumerate(batch_results)` loop over one batch of
`size` segments starting at segment `i`: appends each surviving path to
`audio_files` in segment order (`asyncio.gather` returns results in task
submission order, so completion order cannot reorder them). -/
def processBatchGo (outcome : Nat → Nat → Bool) :
    Nat → Nat → List (List Char) → List (List Char)
  | _, 0, files => files
  | i, size + 1, files =>
    processBatchGo outcome (i + 1) size
      (match segResult outcome i with
        | some p => files ++ [p]
        | none => files)

/-- The `for batch_start in range(0, len(chunks), self.parallel_limit)` loop
with `parallel_limit = 5`, fueled by an upper bound on the number of
batches. -/
def batchesGo (outcome : Nat → Nat → Bool) (n : Nat) :
    Nat → Nat → List (List Char) → List (List Char)
  | 0, _, files => files
  | fuel + 1, batchStart, files =>
    if batchStart < n then
      batchesGo outcome n fuel (batchStart + 5)
        (processBatchGo outcome batchStart (min (batchStart + 5) n - batchStart) files)
    else files

/-- Source: `audio_files` after the batch loop of `generate_for_20k_words` over `n`
segments (fuel `n` always suffices because ⌈n/5⌉ ≤ n). -/
def generateAudioFiles (outcome : Nat → Nat → Bool) (n : Nat) : List (List Char) :=
  batchesGo outcome n n 0 []

/-- The `chunks_order.txt` manifest: line `i` is `f"{i:04d}|{path}"` where
`i` enumerates the surviving `audio_files` list — the position in that list,
not the original segment index. -/
def generateManifest (outcome : Nat → Nat → Bool) (n : Nat) : List (Nat × List Char) :=
  (generateAudioFiles outcome n).enum

/-- The literal reading of claim C2: every segment that (eventually)
succeeded appears in the manifest under its original zero-based index. -/
def c2ManifestClaim (outcome : Nat → Nat → Bool) (n : Nat) : Prop :=
  ∀ i, i < n → (segResult outcome i).isSome →
    (i, speechPath i) ∈ generateManifest outcome n

theorem range'_succ_eq (s n : Nat) : List.range' s (n + 1) = s :: List.range' (s + 1) n := rfl

theorem range'_zero_eq (s : Nat) : List.range' s 0 = [] := rfl

theorem range'_split (s m k : Nat) :
    List.range' s (m + k) = List.range' s m ++ List.range' (s + m) k := by
  induction m generalizing s with
  | zero =>
    rw [range'_zero_eq, Nat.zero_add, List.nil_append, Nat.add_zero]
  | succ m ih =>
    have h1 : m + 1 + k = (m + k) + 1 := by omega
    rw [h1, range'_succ_eq, range'_succ_eq, ih (s + 1), List.cons_append]
    have h2 : s + 1 + m = s + (m + 1) := by omega
    rw [h2]

theorem processBatchGo_eq (outcome : Nat → Nat → Bool) :
    ∀ size i files, processBatchGo outcome i size files =
      files ++ (List.range' i size).filterMap (segResult outcome) := by
  intro size
  induction size with
  | zero =>
    intro i files
    rw [range'_zero_eq]
    simp [processBatchGo]
  | succ size ih =>
    intro i files
    cases hseg : segResult outcome i with
    | none =>
      simp only [processBatchGo, hseg]
      rw [ih (i + 1), range'_succ_eq, List.filterMap_cons, hseg]
    | some p =>
      simp only [processBatchGo, hseg]
      rw [ih (i + 1), range'_succ_eq, List.filterMap_cons, hseg, List.append_assoc]
      rfl

theorem batchesGo_eq (outcome : Nat → Nat → Bool) (n : Nat) :
    ∀ fuel batchStart files, n ≤ batchStart + 5 * fuel →
      batchesGo outcome n fuel batchStart files =
        files ++ (List.range' batchStart (n - batchStart)).filterMap (segResult outcome) := by
  intro fuel
  induction fuel with
  | zero =>
    intro bs files h
    have h0 : n - bs = 0 := by omega
    simp only [batchesGo]
    rw [h0, range'_zero_eq]
    simp
  | succ fuel ih =>
    intro bs files h
    simp only [batchesGo]
    by_cases hbs : bs < n
    · rw [if_pos hbs, processBatchGo_eq, ih (bs + 5) _ (by omega), List.append_assoc,
        ← List.filterMap_append]
      by_cases h5 : bs + 5 ≤ n
      · have hm : min (bs + 5) n - bs = 5 := by omega
        have hsplit : List.range' bs (n - bs) =
            List.range' bs 5 ++ List.range' (bs + 5) (n - (bs + 5)) := by
          have hnb : n - bs = 5 + (n - (bs + 5)) := by omega
          rw [hnb, range'_split]
        rw [hm, hsplit]
      · have hm : min (bs + 5) n - bs = n - bs := by omega
        have hk : n - (bs + 5) = 0 := by omega
        rw [hm, hk, range'_zero_eq, List.append_nil]
    · rw [if_neg hbs]
      have h0 : n - bs = 0 := by omega
      rw [h0, range'_zero_eq]
      simp

/-! Section: Claim C2 -/

/-- C2 (counterexample): two segments, segment 0 fails both its batch call
and its retry, segment 1 succeeds.  The code `continue`s over segment 0
without recording anything and enumerates the surviving files from 0, so the
manifest is `[(0, speech_0001.mp3)]`: segment 1 is listed under index 0, not
its original index 1, and no gap marks segment 0. -/
theorem c2_failed_segment_reindexed : ¬ c2ManifestClaim (fun i _ => i == 1) 2 := by
  unfold c2ManifestClaim
  decide

/-- C2 (amended): the manifest is the enumeration, from 0, of the surviving
segments in original relative order: permanently failed segments are
silently dropped (no gap entries), each surviving segment's manifest index
is its position among the survivors, and the index column is the contiguous
duplicate-free sequence `0..k-1` for `k` survivors. -/
theorem c2_manifest_enum (outcome : Nat → Nat → Bool) (n : Nat) :
    generateManifest outcome n = ((List.range n).filterMap (segResult outcome)).enum ∧
      (generateManifest outcome n).map Prod.fst =
        List.range ((List.range n).filterMap (segResult outcome)).length := by
  have hfiles : generateAudioFiles outcome n = (List.range n).filterMap (segResult outcome) := by
    unfold generateAudioFiles
    rw [batchesGo_eq outcome n n 0 [] (by omega), Nat.sub_zero, ← List.range_eq_range',
      List.nil_append]
  constructor
  · unfold generateManifest
    rw [hfiles]
  · unfold generateManifest
    rw [hfiles, List.enum_map_fst]

end Spec2Proof
